import Mathlib

/-!
A verification development for the product-catalog backend of the shop
repository.  The controller operations (listing with pagination and keyword
filter, category listing with price aggregates, retrieval, update, deletion
with image cleanup, review creation, top products, and the distinct-value
lookups) are shallowly embedded as pure Lean functions over an explicit list
of product records; the document store is a `List Product`, the local file
system a `List String` of existing paths, and numeric values are rationals.
-/

namespace ShopBackend

/-- A product review, embedded in a product document. -/
structure Review where
  user : Nat
  name : String
  rating : ℚ
  comment : String
deriving DecidableEq

/-- A product document as stored in the catalog collection. -/
structure Product where
  id : Nat
  user : Nat
  name : String
  price : ℚ
  description : String
  image : String
  brand : String
  category : String
  countInStock : Nat
  colors : List String
  char : String
  year : Option Int
  rating : ℚ
  numReviews : Nat
  reviews : List Review
deriving DecidableEq

/-- The authenticated caller attached to a request. -/
structure UserInfo where
  id : Nat
  name : String

/-- A raised failure together with the response status set by the handler. -/
structure ErrorResp where
  status : Nat
  message : String
deriving DecidableEq

/-- A success confirmation payload together with its response status. -/
structure OkResp where
  status : Nat
  message : String
deriving DecidableEq

/-- `Product.findById`: the first document whose id equals the requested id. -/
def findById (store : List Product) (pid : Nat) : Option Product :=
  store.find? (fun q => q.id == pid)

/-- `product.save()`: replace the document with the same id by the updated one. -/
def saveProduct (store : List Product) (updated : Product) : List Product :=
  store.map (fun q => if q.id == updated.id then updated else q)

/-- `process.env.PAGINATION_LIMIT || 10`: the configured page size, 10 when unset. -/
def pageSizeOf (env : Option Nat) : Nat :=
  env.getD 10

/-- Substring search over character lists: does the needle occur contiguously? -/
def containsChars (needle : List Char) : List Char → Bool
  | [] => needle.isEmpty
  | c :: rest => List.isPrefixOf needle (c :: rest) || containsChars needle rest

/-- The characters of a string, lowercased (for case-insensitive matching). -/
def lowerChars (s : String) : List Char :=
  s.data.map Char.toLower

/-- The `$regex` name filter with the `i` option: case-insensitive substring match. -/
def containsCI (needle hay : String) : Bool :=
  containsChars (lowerChars needle) (lowerChars hay)

/-- The keyword filter built by `getProducts`: everything matches when absent. -/
def matchesKeyword (kw : Option String) (p : Product) : Bool :=
  match kw with
  | none => true
  | some k => containsCI k p.name

/-- Response of `getProducts`. -/
structure ProductsPage where
  products : List Product
  page : Nat
  pages : Nat

/-- `getProducts`: count the matches, skip `pageSize * (page - 1)`, limit to
`pageSize`, and report `Math.ceil(count / pageSize)` total pages. -/
def getProducts (env : Option Nat) (store : List Product) (kw : Option String)
    (page : Nat) : ProductsPage :=
  let pageSize := pageSizeOf env
  let matching := store.filter (matchesKeyword kw)
  let count := matching.length
  { products := (matching.drop (pageSize * (page - 1))).take pageSize,
    page := page,
    pages := (count + pageSize - 1) / pageSize }

/-- Response of `getProductsByCategory`; `notFoundStatus` records whether the
handler called `res.status(404)` before emitting the body. -/
structure CategoryPage where
  products : List Product
  category : String
  page : Nat
  pages : Nat
  minPrice : Option ℚ
  maxPrice : Option ℚ
  notFoundStatus : Bool

/-- `getProductsByCategory`: exact category match, the same pagination as
`getProducts`, an aggregate for the minimum and maximum price over the whole
match set, and a 404 status flag raised when the returned page is empty. -/
def getProductsByCategory (env : Option Nat) (store : List Product)
    (category : String) (page : Nat) : CategoryPage :=
  let pageSize := pageSizeOf env
  let matching := store.filter (fun p => p.category == category)
  let count := matching.length
  let pageProducts := (matching.drop (pageSize * (page - 1))).take pageSize
  { products := pageProducts,
    category := category,
    page := page,
    pages := (count + pageSize - 1) / pageSize,
    minPrice := (matching.map Product.price).min?,
    maxPrice := (matching.map Product.price).max?,
    notFoundStatus := pageProducts.isEmpty }

/-- `getProductById`: the full record, or a 404 failure with the fixed message. -/
def getProductById (store : List Product) (pid : Nat) : Except ErrorResp Product :=
  match findById store pid with
  | none => Except.error { status := 404, message := "Product not found" }
  | some p => Except.ok p

/-- The ten request-body fields consumed by update (and creation). -/
structure ProductFields where
  name : String
  price : ℚ
  description : String
  image : String
  brand : String
  category : String
  countInStock : Nat
  colors : List String
  char : String
  year : Option Int

/-- The field-by-field assignment performed by `updateProduct` on the fetched
document before saving it. -/
def applyUpdate (product : Product) (f : ProductFields) : Product :=
  { product with
    name := f.name,
    price := f.price,
    description := f.description,
    image := f.image,
    brand := f.brand,
    category := f.category,
    countInStock := f.countInStock,
    colors := f.colors,
    char := f.char,
    year := f.year }

/-- `updateProduct`: full-field replacement of an existing document, or a 404
failure leaving the store untouched. -/
def updateProduct (store : List Product) (pid : Nat) (f : ProductFields) :
    Except ErrorResp Product × List Product :=
  match findById store pid with
  | none => (Except.error { status := 404, message := "Product not found" }, store)
  | some product =>
      let updated := applyUpdate product f
      (Except.ok updated, saveProduct store updated)

/-- Everything observable after a delete request: the response, the store, the
file system, and whether the file system was touched at all. -/
structure DeleteOutcome where
  result : Except ErrorResp OkResp
  store : List Product
  fs : List String
  fsAccessed : Bool

/-- The local-upload path marker tested by `image.startsWith('/uploads')`. -/
def uploadsRoot : String := "/uploads"

/-- `String.startsWith`, computed on the underlying character lists. -/
def strStartsWith (s pre : String) : Bool :=
  List.isPrefixOf pre.data s.data

/-- `deleteProduct`: on a hit, when the image lives under the uploads root the
file `path.join(__dirname, image)` is unlinked if it exists (`existsSync`
guard), then the record is removed; otherwise only the record is removed and
the file system is never consulted. -/
def deleteProduct (dirname : String) (store : List Product) (fs : List String)
    (pid : Nat) : DeleteOutcome :=
  match findById store pid with
  | none =>
      { result := Except.error { status := 404, message := "Product not found" },
        store := store, fs := fs, fsAccessed := false }
  | some product =>
      if strStartsWith product.image uploadsRoot then
        let filePath := dirname ++ product.image
        let fs' := if fs.contains filePath then fs.erase filePath else fs
        { result := Except.ok { status := 200, message := "Product removed" },
          store := store.eraseP (fun q => q.id == product.id),
          fs := fs', fsAccessed := true }
      else
        { result := Except.ok { status := 200, message := "Product removed" },
          store := store.eraseP (fun q => q.id == product.id),
          fs := fs, fsAccessed := false }

/-- The review-rating accumulation `reviews.reduce((acc, item) => item.rating + acc, 0)`. -/
def ratingSum (rs : List Review) : ℚ :=
  rs.foldl (fun acc r => r.rating + acc) 0

/-- The in-place mutation performed by `createProductReview` on a fetched
product: push the new review, set `numReviews` to the new length, set `rating`
to the accumulated rating divided by the review count. -/
def addReview (product : Product) (caller : UserInfo) (rating : ℚ)
    (comment : String) : Product :=
  let reviews' := product.reviews ++
    [{ user := caller.id, name := caller.name, rating := rating, comment := comment }]
  { product with
    reviews := reviews',
    numReviews := reviews'.length,
    rating := ratingSum reviews' / (reviews'.length : ℚ) }

/-- `createProductReview`: 404 when the product is missing, 400 when the caller
already reviewed it (identity comparison against each review), otherwise the
mutation above is saved and a 201 confirmation returned. -/
def createProductReview (store : List Product) (pid : Nat) (caller : UserInfo)
    (rating : ℚ) (comment : String) : Except ErrorResp OkResp × List Product :=
  match findById store pid with
  | none => (Except.error { status := 404, message := "Product not found" }, store)
  | some product =>
      match product.reviews.find? (fun r => r.user == caller.id) with
      | some _ =>
          (Except.error { status := 400, message := "Product already reviewed" }, store)
      | none =>
          (Except.ok { status := 201, message := "Review added" },
            saveProduct store (addReview product caller rating comment))

/-- Ordered insertion for the store-side sorts (structural recursion so that
concrete instances evaluate). -/
def insertOrd (r : α → α → Bool) (a : α) : List α → List α
  | [] => [a]
  | b :: l => if r a b then a :: b :: l else b :: insertOrd r a l

/-- Insertion sort by the Boolean relation `r`. -/
def sortOrd (r : α → α → Bool) : List α → List α
  | [] => []
  | a :: l => insertOrd r a (sortOrd r l)

/-- The descending-rating comparison of `.sort({ rating: -1 })`. -/
def ratingGe (a b : Product) : Bool :=
  decide (b.rating ≤ a.rating)

/-- `getTopProducts`: sort by rating descending and take the first 3. -/
def getTopProducts (store : List Product) : List Product :=
  (sortOrd ratingGe store).take 3

/-- The default lexicographic string comparison of JavaScript `.sort()`. -/
def strLe (a b : String) : Bool :=
  decide (a ≤ b)

/-- `getAllBrands`: group by brand (distinct values), then sort ascending. -/
def getAllBrands (store : List Product) : List String :=
  sortOrd strLe ((store.map Product.brand).dedup)

/-- `getAllColors`: unwind every colors array, then group (distinct values). -/
def getAllColors (store : List Product) : List String :=
  (store.flatMap Product.colors).dedup

/-- `getAllYears`: match documents with a non-null year, then group by year. -/
def getAllYears (store : List Product) : List (Option Int) :=
  ((store.filter (fun p => p.year != none)).map Product.year).dedup

/-- A fully concrete product record used to build sample stores. -/
def baseProduct : Product :=
  { id := 1, user := 0, name := "Widget", price := 0, description := "",
    image := "https://cdn.example.com/w.png", brand := "Acme", category := "tools",
    countInStock := 5, colors := ["red"], char := "", year := some 2020,
    rating := 0, numReviews := 0, reviews := [] }

/-- Sample unreviewed product for the review-creation claim. -/
def productC1 : Product := { baseProduct with id := 7 }

/-- Sample data for the review-creation claim: a single unreviewed product. -/
def storeC1 : List Product := [productC1]

/-- Sample caller for the review-creation claim. -/
def callerC1 : UserInfo := { id := 3, name := "Ann" }

/-- A review by user 3, used for the duplicate-review claim. -/
def reviewC2 : Review := { user := 3, name := "Ann", rating := 4, comment := "ok" }

/-- Sample product already reviewed by user 3. -/
def productC2 : Product :=
  { baseProduct with id := 7, reviews := [reviewC2], numReviews := 1, rating := 4 }

/-- Sample data for the duplicate-review claim: user 3 already reviewed. -/
def storeC2 : List Product := [productC2]

/-- Sample caller for the duplicate-review claim (same identity as `reviewC2`). -/
def callerC2 : UserInfo := { id := 3, name := "Ann" }

/-- Sample store for the pagination claim. -/
def storeC3 : List Product :=
  [{ baseProduct with id := 1 }, { baseProduct with id := 2 }]

/-- Sample store for the category-listing claim: one product in category `cat`. -/
def storeC4 : List Product := [{ baseProduct with id := 1, category := "cat" }]

/-- Sample fields bundle for the update claims. -/
def fieldsC5 : ProductFields :=
  { name := "New", price := 1, description := "d", image := "/uploads/n.png",
    brand := "B", category := "c", countInStock := 2, colors := [], char := "x",
    year := some 2021 }

/-- Sample product with an externally hosted image. -/
def productC6 : Product := { baseProduct with id := 9 }

/-- Sample store for the deletion claim: an externally hosted image. -/
def storeC6 : List Product := [productC6]

/-- Lowest-rated sample product for the top-products claim. -/
def productC7 : Product := { baseProduct with id := 1, rating := 1 }

/-- Highest-rated sample product for the top-products claim. -/
def productC7top : Product := { baseProduct with id := 2, rating := 4 }

/-- Sample store for the top-products claim: four distinct ratings. -/
def storeC7 : List Product :=
  [productC7, productC7top,
   { baseProduct with id := 3, rating := 3 }, { baseProduct with id := 4, rating := 2 }]

/-- Sample store for the distinct-value claim. -/
def storeC8 : List Product :=
  [{ baseProduct with id := 1, brand := "b", colors := ["red", "blue"] },
   { baseProduct with id := 2, brand := "a", colors := ["red"], year := none }]

/-- Sample mixed-case-name product for the keyword claim. -/
def productC9 : Product := { baseProduct with id := 1, name := "AirPhone" }

/-- Sample store for the keyword claim: a mixed-case product name. -/
def storeC9 : List Product := [productC9]

/-- Sample product for the update-frame claim. -/
def productC10 : Product :=
  { baseProduct with id := 5, reviews := [reviewC2], numReviews := 1, rating := 4 }

/-- Sample store for the update-frame claim. -/
def storeC10 : List Product := [productC10]

/-! ## Helper lemmas -/

theorem ratingSum_go (rs : List Review) (a : ℚ) :
    rs.foldl (fun acc r => r.rating + acc) a = a + (rs.map Review.rating).sum := by
  induction rs generalizing a with
  | nil => simp
  | cons r rs ih =>
      simp only [List.foldl_cons, List.map_cons, List.sum_cons, ih]
      ring

/-- The source accumulation equals the sum of the mapped ratings. -/
theorem ratingSum_eq_sum (rs : List Review) :
    ratingSum rs = (rs.map Review.rating).sum := by
  simp [ratingSum, ratingSum_go]

/-- `find?` answers the predicate positively on its result. -/
theorem findById_id (store : List Product) (pid : Nat) (p : Product)
    (h : findById store pid = some p) : p.id = pid := by
  have := List.find?_some h
  simpa using this

/-- Saving a document with the id that was found makes it the one found next. -/
theorem findById_saveProduct (store : List Product) (pid : Nat) (p updated : Product)
    (hfind : findById store pid = some p) (hid : updated.id = p.id) :
    findById (saveProduct store updated) pid = some updated := by
  have hpid : p.id = pid := findById_id store pid p hfind
  have hupd : updated.id = pid := by rw [hid, hpid]
  induction store with
  | nil => simp [findById] at hfind
  | cons q store ih =>
      unfold findById saveProduct
      rw [List.map_cons]
      by_cases hq : q.id = pid
      · rw [if_pos (by simp [hupd, hq])]
        exact List.find?_cons_of_pos _ (by simp [hupd])
      · rw [if_neg (by simp only [hupd, beq_iff_eq]; exact hq)]
        rw [List.find?_cons_of_neg _ (by simp [hq])]
        have hfind' : findById store pid = some p := by
          rw [findById] at hfind
          rwa [List.find?_cons_of_neg _ (by simp [hq])] at hfind
        exact ih hfind'

/-- The executable substring search decides contiguous containment. -/
theorem containsChars_eq_true_iff (needle hay : List Char) :
    containsChars needle hay = true ↔ needle <:+: hay := by
  induction hay with
  | nil =>
      simp [containsChars, List.isEmpty_iff, List.infix_nil]
  | cons c rest ih =>
      rw [containsChars, Bool.or_eq_true, List.isPrefixOf_iff_prefix, ih,
        List.infix_cons_iff]

/-- Ordered insertion is a permutation of consing. -/
theorem insertOrd_perm (r : α → α → Bool) (a : α) (l : List α) :
    (insertOrd r a l).Perm (a :: l) := by
  induction l with
  | nil => exact List.Perm.refl _
  | cons b l ih =>
      rw [insertOrd]
      by_cases h : r a b = true
      · rw [if_pos h]
      · rw [if_neg h]
        exact (List.Perm.cons b ih).trans (List.Perm.swap a b l)

/-- Insertion sort permutes its input. -/
theorem sortOrd_perm (r : α → α → Bool) (l : List α) : (sortOrd r l).Perm l := by
  induction l with
  | nil => exact List.Perm.refl _
  | cons a l ih =>
      rw [sortOrd]
      exact (insertOrd_perm r a (sortOrd r l)).trans (List.Perm.cons a ih)

/-- Ordered insertion preserves sortedness for a total transitive comparison. -/
theorem insertOrd_pairwise (r : α → α → Bool)
    (htrans : ∀ a b c, r a b = true → r b c = true → r a c = true)
    (htot : ∀ a b, r a b = true ∨ r b a = true) (a : α) (l : List α)
    (hl : l.Pairwise (fun x y => r x y = true)) :
    (insertOrd r a l).Pairwise (fun x y => r x y = true) := by
  induction l with
  | nil => simp [insertOrd]
  | cons b l ih =>
      rw [List.pairwise_cons] at hl
      rw [insertOrd]
      by_cases h : r a b = true
      · rw [if_pos h]
        refine List.Pairwise.cons ?_ (List.Pairwise.cons hl.1 hl.2)
        intro x hx
        rcases List.mem_cons.mp hx with hx | hx
        · exact hx ▸ h
        · exact htrans a b x h (hl.1 x hx)
      · rw [if_neg h]
        have hba : r b a = true := (htot a b).resolve_left h
        refine List.Pairwise.cons ?_ (ih hl.2)
        intro x hx
        rcases List.mem_cons.mp ((insertOrd_perm r a l).mem_iff.mp hx) with hx' | hx'
        · exact hx' ▸ hba
        · exact hl.1 x hx'

/-- Insertion sort sorts, for a total transitive comparison. -/
theorem sortOrd_pairwise (r : α → α → Bool)
    (htrans : ∀ a b c, r a b = true → r b c = true → r a c = true)
    (htot : ∀ a b, r a b = true ∨ r b a = true) (l : List α) :
    (sortOrd r l).Pairwise (fun x y => r x y = true) := by
  induction l with
  | nil => simp [sortOrd]
  | cons a l ih => exact insertOrd_pairwise r htrans htot a _ ih

/-- Splitting a list into consecutive pages of size `ps` loses and repeats
nothing: the concatenation of the `ceil(length / ps)` pages is the list. -/
theorem paginate_exact_aux (ps : Nat) (hps : 0 < ps) :
    ∀ (n : Nat) (l : List α), l.length ≤ n →
      (List.range ((l.length + ps - 1) / ps)).flatMap
        (fun i => (l.drop (ps * i)).take ps) = l := by
  intro n
  induction n with
  | zero =>
      intro l hl
      have hnil : l = [] := List.eq_nil_of_length_eq_zero (Nat.le_zero.mp hl)
      subst hnil
      simp [Nat.div_eq_of_lt (show 0 + ps - 1 < ps by omega)]
  | succ n ih =>
      intro l hl
      rcases Nat.eq_zero_or_pos l.length with h0 | h1
      · have hnil : l = [] := List.eq_nil_of_length_eq_zero h0
        subst hnil
        simp [Nat.div_eq_of_lt (show 0 + ps - 1 < ps by omega)]
      · have hpages : (l.length + ps - 1) / ps = ((l.drop ps).length + ps - 1) / ps + 1 := by
          rw [List.length_drop]
          have h2 : l.length + ps - 1 = (l.length - 1) + ps := by omega
          rw [h2, Nat.add_div_right _ hps]
          rcases le_or_lt l.length ps with hle | hlt
          · have e1 : l.length - ps = 0 := by omega
            rw [e1, Nat.div_eq_of_lt (show l.length - 1 < ps by omega),
              Nat.div_eq_of_lt (show 0 + ps - 1 < ps by omega)]
          · have e2 : l.length - ps + ps - 1 = l.length - 1 := by omega
            rw [e2]
        rw [hpages, List.range_succ_eq_map, List.flatMap_cons, List.flatMap_map]
        have hfun : (fun i => (l.drop (ps * Nat.succ i)).take ps)
            = (fun i => ((l.drop ps).drop (ps * i)).take ps) := by
          funext i
          rw [List.drop_drop]
          have : ps * Nat.succ i = ps + ps * i := by
            rw [Nat.mul_succ]
            omega
          rw [this]
        rw [show (fun a => (l.drop (ps * Nat.succ a)).take ps)
            = (fun i => ((l.drop ps).drop (ps * i)).take ps) from hfun]
        rw [ih (l.drop ps) (by rw [List.length_drop]; omega)]
        exact List.take_append_drop ps l

/-- Page-splitting lemma, stated for the length of the list itself. -/
theorem paginate_exact (ps : Nat) (hps : 0 < ps) (l : List α) :
    (List.range ((l.length + ps - 1) / ps)).flatMap
      (fun i => (l.drop (ps * i)).take ps) = l :=
  paginate_exact_aux ps hps l.length l le_rfl

/-- The integer page count `(count + ps - 1) / ps` is the ceiling of the exact
rational quotient. -/
theorem pages_eq_ceil (count ps : Nat) (hps : 0 < ps) :
    (count + ps - 1) / ps = ⌈(count : ℚ) / (ps : ℚ)⌉₊ := by
  refine eq_of_forall_ge_iff (fun c => ?_)
  rw [← Nat.ceilDiv_eq_add_pred_div, ceilDiv_le_iff_le_mul hps, Nat.ceil_le,
    div_le_iff₀ (by exact_mod_cast hps)]
  have hcast : ((c : ℚ) * (ps : ℚ)) = ((ps * c : ℕ) : ℚ) := by
    push_cast
    ring
  rw [hcast, Nat.cast_le]

instance : Std.Antisymm (fun a b : ℚ => a ≤ b) :=
  ⟨fun h h' => le_antisymm h h'⟩

/-- Documents with a different id survive a save unchanged. -/
theorem mem_saveProduct_of_ne (store : List Product) (updated q : Product)
    (hq : q ∈ store) (hne : q.id ≠ updated.id) : q ∈ saveProduct store updated := by
  have : (fun x => if x.id == updated.id then updated else x) q = q := by
    simp [hne]
  rw [saveProduct]
  exact this ▸ List.mem_map_of_mem _ hq

/-! ## Claim theorems -/

/-- C5: for an id with no matching record, single-product retrieval, full
update and deletion all fail with the fixed message "Product not found" and a
not-found (404) status, leaving the store and file system unchanged; for an id
with a matching record, retrieval returns the full stored record. -/
theorem missing_id_not_found (store : List Product) (pid : Nat)
    (f : ProductFields) (dirname : String) (fs : List String) :
    (findById store pid = none →
      getProductById store pid =
        Except.error { status := 404, message := "Product not found" } ∧
      updateProduct store pid f =
        (Except.error { status := 404, message := "Product not found" }, store) ∧
      deleteProduct dirname store fs pid =
        { result := Except.error { status := 404, message := "Product not found" },
          store := store, fs := fs, fsAccessed := false }) ∧
    (∀ p, findById store pid = some p → getProductById store pid = Except.ok p) := by
  constructor
  · intro h
    refine ⟨?_, ?_, ?_⟩ <;> simp [getProductById, updateProduct, deleteProduct, h]
  · intro p h
    simp [getProductById, h]

/-- Witness for C5: the empty store misses id 0, and a concrete hit is
returned in full. -/
theorem missing_id_not_found_witness :
    getProductById [] 0 =
      Except.error { status := 404, message := "Product not found" } ∧
    getProductById storeC1 7 = Except.ok productC1 :=
  ⟨((missing_id_not_found [] 0 fieldsC5 "" []).1 rfl).1,
    (missing_id_not_found storeC1 7 fieldsC5 "" []).2 productC1 rfl⟩

/-- C10: a successful full update replaces exactly the ten request-body fields
and preserves the identity, owner reference, reviews sequence, numReviews and
rating; documents with a different id survive unchanged. -/
theorem updateProduct_frame (store : List Product) (pid : Nat)
    (f : ProductFields) (p : Product) (hfind : findById store pid = some p) :
    updateProduct store pid f =
      (Except.ok (applyUpdate p f), saveProduct store (applyUpdate p f)) ∧
    (applyUpdate p f).name = f.name ∧
    (applyUpdate p f).price = f.price ∧
    (applyUpdate p f).description = f.description ∧
    (applyUpdate p f).image = f.image ∧
    (applyUpdate p f).brand = f.brand ∧
    (applyUpdate p f).category = f.category ∧
    (applyUpdate p f).countInStock = f.countInStock ∧
    (applyUpdate p f).colors = f.colors ∧
    (applyUpdate p f).char = f.char ∧
    (applyUpdate p f).year = f.year ∧
    (applyUpdate p f).id = p.id ∧
    (applyUpdate p f).user = p.user ∧
    (applyUpdate p f).reviews = p.reviews ∧
    (applyUpdate p f).numReviews = p.numReviews ∧
    (applyUpdate p f).rating = p.rating ∧
    findById (saveProduct store (applyUpdate p f)) pid = some (applyUpdate p f) ∧
    ∀ q ∈ store, q.id ≠ pid → q ∈ saveProduct store (applyUpdate p f) := by
  refine ⟨by simp [updateProduct, hfind], rfl, rfl, rfl, rfl, rfl, rfl, rfl, rfl,
    rfl, rfl, rfl, rfl, rfl, rfl, rfl,
    findById_saveProduct store pid p _ hfind rfl, ?_⟩
  intro q hq hne
  refine mem_saveProduct_of_ne store _ q hq ?_
  have hid : (applyUpdate p f).id = pid := by
    rw [show (applyUpdate p f).id = p.id from rfl, findById_id store pid p hfind]
  rw [hid]
  exact hne

/-- Witness for C10 on a concrete one-product store. -/
theorem updateProduct_frame_witness :
    updateProduct storeC10 5 fieldsC5 =
      (Except.ok (applyUpdate productC10 fieldsC5),
        saveProduct storeC10 (applyUpdate productC10 fieldsC5)) :=
  (updateProduct_frame storeC10 5 fieldsC5 productC10 rfl).1

/-- C6: successful deletion of a product whose image lies under the uploads
root touches the file system, removes that file exactly when it exists (and
skips the unlink otherwise), and erases the record; when the image is hosted
elsewhere only the record is removed and the file system is never accessed. -/
theorem deleteProduct_image_cleanup (dirname : String) (store : List Product)
    (fs : List String) (pid : Nat) (p : Product)
    (hfind : findById store pid = some p) :
    (strStartsWith p.image uploadsRoot = true →
      (deleteProduct dirname store fs pid).fsAccessed = true ∧
      (deleteProduct dirname store fs pid).fs = fs.erase (dirname ++ p.image) ∧
      ((dirname ++ p.image) ∉ fs → (deleteProduct dirname store fs pid).fs = fs) ∧
      (deleteProduct dirname store fs pid).store =
        store.eraseP (fun q => q.id == p.id) ∧
      (deleteProduct dirname store fs pid).result =
        Except.ok { status := 200, message := "Product removed" }) ∧
    (strStartsWith p.image uploadsRoot = false →
      (deleteProduct dirname store fs pid).fsAccessed = false ∧
      (deleteProduct dirname store fs pid).fs = fs ∧
      (deleteProduct dirname store fs pid).store =
        store.eraseP (fun q => q.id == p.id) ∧
      (deleteProduct dirname store fs pid).result =
        Except.ok { status := 200, message := "Product removed" }) := by
  constructor
  · intro h
    refine ⟨?_, ?_, ?_, ?_, ?_⟩
    · simp [deleteProduct, hfind, h]
    · by_cases hmem : (dirname ++ p.image) ∈ fs
      · simp [deleteProduct, hfind, h, hmem]
      · simp [deleteProduct, hfind, h, hmem, List.erase_of_not_mem hmem]
    · intro hmem
      simp [deleteProduct, hfind, h, hmem]
    · simp [deleteProduct, hfind, h]
    · simp [deleteProduct, hfind, h]
  · intro h
    refine ⟨?_, ?_, ?_, ?_⟩ <;> simp [deleteProduct, hfind, h]

/-- Witness for C6: deleting a product with an external image URL leaves a
nonempty file system untouched and unvisited. -/
theorem deleteProduct_image_cleanup_witness :
    (deleteProduct "/srv" storeC6 ["/srv/uploads/w.png"] 9).fsAccessed = false ∧
    (deleteProduct "/srv" storeC6 ["/srv/uploads/w.png"] 9).fs =
      ["/srv/uploads/w.png"] := by
  have h := (deleteProduct_image_cleanup "/srv" storeC6 ["/srv/uploads/w.png"] 9
    productC6 rfl).2 (by decide)
  exact ⟨h.1, h.2.1⟩

/-- C1: a review request by a caller with no prior review on an existing
product succeeds with a 201 confirmation, appends exactly one review carrying
the caller name, rating, comment and identity, sets numReviews to the new
length of the reviews sequence (one more than before), sets rating to the
arithmetic mean (sum of the review ratings divided by their count), persists
all of it in the saved store, and leaves every other document unchanged. -/
theorem createProductReview_success (store : List Product) (pid : Nat)
    (caller : UserInfo) (rating : ℚ) (comment : String) (p : Product)
    (hfind : findById store pid = some p)
    (hnew : ∀ r ∈ p.reviews, r.user ≠ caller.id) :
    (createProductReview store pid caller rating comment).1 =
      Except.ok { status := 201, message := "Review added" } ∧
    (createProductReview store pid caller rating comment).2 =
      saveProduct store (addReview p caller rating comment) ∧
    (addReview p caller rating comment).reviews = p.reviews ++
      [{ user := caller.id, name := caller.name, rating := rating,
         comment := comment }] ∧
    (addReview p caller rating comment).numReviews =
      (addReview p caller rating comment).reviews.length ∧
    (addReview p caller rating comment).numReviews = p.reviews.length + 1 ∧
    (addReview p caller rating comment).rating =
      ((addReview p caller rating comment).reviews.map Review.rating).sum /
        (((addReview p caller rating comment).reviews.length : ℚ)) ∧
    findById (saveProduct store (addReview p caller rating comment)) pid =
      some (addReview p caller rating comment) ∧
    ∀ q ∈ store, q.id ≠ pid →
      q ∈ saveProduct store (addReview p caller rating comment) := by
  have hfound : p.reviews.find? (fun r => r.user == caller.id) = none := by
    rw [List.find?_eq_none]
    intro r hr
    simpa using hnew r hr
  refine ⟨by simp [createProductReview, hfind, hfound],
    by simp [createProductReview, hfind, hfound], rfl, rfl,
    by simp [addReview], by simp [addReview, ratingSum_eq_sum],
    findById_saveProduct store pid p _ hfind rfl, ?_⟩
  intro q hq hne
  refine mem_saveProduct_of_ne store _ q hq ?_
  have hid : (addReview p caller rating comment).id = pid := by
    rw [show (addReview p caller rating comment).id = p.id from rfl,
      findById_id store pid p hfind]
  rw [hid]
  exact hne

/-- Witness for C1 on a concrete unreviewed product. -/
theorem createProductReview_success_witness :
    (createProductReview storeC1 7 callerC1 4 "ok").1 =
      Except.ok { status := 201, message := "Review added" } ∧
    (createProductReview storeC1 7 callerC1 4 "ok").2 =
      saveProduct storeC1 (addReview productC1 callerC1 4 "ok") := by
  have h := createProductReview_success storeC1 7 callerC1 4 "ok" productC1 rfl
    (by simp [productC1, baseProduct])
  exact ⟨h.1, h.2.1⟩

/-- C2: when the caller identity equals the user reference of an existing
review on the product, review creation fails with the Duplicate-Review error
and a 400 status, leaving the store (hence reviews, numReviews, rating)
unchanged; moreover review creation preserves the invariant that no product
holds two reviews with the same user reference. -/
theorem createProductReview_duplicate :
    (∀ (store : List Product) (pid : Nat) (caller : UserInfo) (rating : ℚ)
        (comment : String) (p : Product), findById store pid = some p →
      (∃ r ∈ p.reviews, r.user = caller.id) →
      createProductReview store pid caller rating comment =
        (Except.error { status := 400, message := "Product already reviewed" },
          store)) ∧
    (∀ (store : List Product) (pid : Nat) (caller : UserInfo) (rating : ℚ)
        (comment : String),
      (∀ q ∈ store, (q.reviews.map Review.user).Nodup) →
      ∀ q ∈ (createProductReview store pid caller rating comment).2,
        (q.reviews.map Review.user).Nodup) := by
  constructor
  · intro store pid caller rating comment p hfind hdup
    obtain ⟨r, hr, hru⟩ := hdup
    rcases hfs : p.reviews.find? (fun x => x.user == caller.id) with _ | r0
    · exfalso
      have := List.find?_eq_none.mp hfs r hr
      simp [hru] at this
    · simp [createProductReview, hfind, hfs]
  · intro store pid caller rating comment hinv q hq
    rcases hfind : findById store pid with _ | product
    · simp only [createProductReview, hfind] at hq
      exact hinv q hq
    · rcases hfs : product.reviews.find? (fun r => r.user == caller.id) with _ | r0
      · simp only [createProductReview, hfind, hfs] at hq
        rw [saveProduct] at hq
        obtain ⟨q0, hq0, hEq⟩ := List.mem_map.mp hq
        by_cases hsel : (q0.id == (addReview product caller rating comment).id) = true
        · rw [if_pos hsel] at hEq
          subst hEq
          have hprod : product ∈ store := List.mem_of_find?_eq_some hfind
          have hnodup := hinv product hprod
          have hnotin : caller.id ∉ product.reviews.map Review.user := by
            intro hmem
            obtain ⟨r, hr, hru⟩ := List.mem_map.mp hmem
            have := List.find?_eq_none.mp hfs r hr
            simp [hru] at this
          have hrev : (addReview product caller rating comment).reviews =
              product.reviews ++ [⟨caller.id, caller.name, rating, comment⟩] := rfl
          show ((addReview product caller rating comment).reviews.map
            Review.user).Nodup
          rw [hrev, List.map_append, List.nodup_append]
          refine ⟨hnodup, List.nodup_singleton _, ?_⟩
          intro a ha hb
          have : a = caller.id := by simpa using hb
          subst this
          exact hnotin ha
        · rw [if_neg hsel] at hEq
          subst hEq
          exact hinv q0 hq0
      · simp only [createProductReview, hfind, hfs] at hq
        exact hinv q hq

/-- Witness for C2: a second review by user 3 on the sample product fails with
the Duplicate-Review error and leaves the store unchanged. -/
theorem createProductReview_duplicate_witness :
    createProductReview storeC2 7 callerC2 5 "again" =
      (Except.error { status := 400, message := "Product already reviewed" },
        storeC2) :=
  createProductReview_duplicate.1 storeC2 7 callerC2 5 "again" productC2 rfl
    ⟨reviewC2, by simp [productC2], rfl⟩

/-- C3: with a positive configured page size (the default being 10 when the
environment value is absent) and a 1-based page number, the listing returns
the matching products after skipping pageSize * (page - 1) of them, returns at
most pageSize of them, reports ceil(matchCount / pageSize) total pages, and
concatenating all pages in page order yields exactly the matching records. -/
theorem getProducts_pagination (env : Option Nat) (store : List Product)
    (kw : Option String) (page : Nat) (hps : 0 < pageSizeOf env)
    (hpage : 1 ≤ page) :
    (getProducts env store kw page).products =
      ((store.filter (matchesKeyword kw)).drop
        (pageSizeOf env * (page - 1))).take (pageSizeOf env) ∧
    (getProducts env store kw page).products.length ≤ pageSizeOf env ∧
    (getProducts env store kw page).pages =
      ⌈((store.filter (matchesKeyword kw)).length : ℚ) / (pageSizeOf env : ℚ)⌉₊ ∧
    (List.range (getProducts env store kw page).pages).flatMap
      (fun i => (getProducts env store kw (i + 1)).products) =
      store.filter (matchesKeyword kw) := by
  refine ⟨rfl, List.length_take_le _ _, pages_eq_ceil _ _ hps, ?_⟩
  have hfun : (fun i => (getProducts env store kw (i + 1)).products) =
      (fun i => ((store.filter (matchesKeyword kw)).drop
        (pageSizeOf env * i)).take (pageSizeOf env)) := by
    funext i
    show ((store.filter (matchesKeyword kw)).drop
      (pageSizeOf env * (i + 1 - 1))).take (pageSizeOf env) = _
    rw [Nat.add_sub_cancel]
  rw [hfun]
  exact paginate_exact (pageSizeOf env) hps (store.filter (matchesKeyword kw))

/-- Witness for C3 with the default page size and page 1. -/
theorem getProducts_pagination_witness :
    (getProducts none storeC3 none 1).products.length ≤ pageSizeOf none :=
  (getProducts_pagination none storeC3 none 1 (by decide) (by decide)).2.1

/-- Counterexample to C4 as stated: with one matching product and page 2, the
returned page is empty, so the handler sets the not-found status even though
the number of category matches is not zero. -/
theorem getProductsByCategory_counterexample :
    (getProductsByCategory none storeC4 "cat" 2).notFoundStatus = true ∧
    (storeC4.filter (fun p => p.category == "cat")).length ≠ 0 := by
  constructor
  · decide
  · decide

/-- C4 (amended): the category listing carries the minimum and maximum price
over all products matching the category (null exactly when no product
matches), and the not-found status signal is set, without aborting the
response, exactly when the returned page of products is empty — in particular
whenever zero products match the category. -/
theorem getProductsByCategory_spec (env : Option Nat) (store : List Product)
    (category : String) (page : Nat) :
    ((getProductsByCategory env store category page).notFoundStatus = true ↔
      (getProductsByCategory env store category page).products = []) ∧
    (store.filter (fun p => p.category == category) = [] →
      (getProductsByCategory env store category page).notFoundStatus = true) ∧
    ((getProductsByCategory env store category page).minPrice = none ↔
      store.filter (fun p => p.category == category) = []) ∧
    (∀ m, (getProductsByCategory env store category page).minPrice = some m →
      (∃ q ∈ store.filter (fun p => p.category == category), q.price = m) ∧
      ∀ q ∈ store.filter (fun p => p.category == category), m ≤ q.price) ∧
    ((getProductsByCategory env store category page).maxPrice = none ↔
      store.filter (fun p => p.category == category) = []) ∧
    (∀ m, (getProductsByCategory env store category page).maxPrice = some m →
      (∃ q ∈ store.filter (fun p => p.category == category), q.price = m) ∧
      ∀ q ∈ store.filter (fun p => p.category == category), q.price ≤ m) := by
  refine ⟨List.isEmpty_iff, ?_, ?_, ?_, ?_, ?_⟩
  · intro h
    show (((store.filter (fun p => p.category == category)).drop _).take _).isEmpty
      = true
    rw [h]
    simp
  · show (((store.filter (fun p => p.category == category)).map Product.price).min?
      = none) ↔ _
    rw [List.min?_eq_none_iff, List.map_eq_nil_iff]
  · intro m hm
    have hchar := List.min?_eq_some_iff (fun a => le_refl a)
      (fun a b => min_choice a b) (fun a b c => le_min_iff) |>.mp hm
    obtain ⟨hmem, hbound⟩ := hchar
    obtain ⟨q, hq, hqp⟩ := List.mem_map.mp hmem
    exact ⟨⟨q, hq, hqp⟩, fun q' hq' =>
      hbound q'.price (List.mem_map_of_mem Product.price hq')⟩
  · show (((store.filter (fun p => p.category == category)).map Product.price).max?
      = none) ↔ _
    rw [List.max?_eq_none_iff, List.map_eq_nil_iff]
  · intro m hm
    have hchar := List.max?_eq_some_iff (fun a => le_refl a)
      (fun a b => max_choice a b) (fun a b c => max_le_iff) |>.mp hm
    obtain ⟨hmem, hbound⟩ := hchar
    obtain ⟨q, hq, hqp⟩ := List.mem_map.mp hmem
    exact ⟨⟨q, hq, hqp⟩, fun q' hq' =>
      hbound q'.price (List.mem_map_of_mem Product.price hq')⟩

/-- Witness for the amended C4 at the counterexample input: the status signal
tracks emptiness of the returned page. -/
theorem getProductsByCategory_spec_witness :
    ((getProductsByCategory none storeC4 "cat" 2).notFoundStatus = true ↔
      (getProductsByCategory none storeC4 "cat" 2).products = []) :=
  (getProductsByCategory_spec none storeC4 "cat" 2).1

/-- C7: the top-products operation returns at most 3 products, in descending
order of rating, and every returned rating dominates every non-returned
rating. -/
theorem getTopProducts_spec (store : List Product) :
    (getTopProducts store).length ≤ 3 ∧
    (getTopProducts store).Sorted (fun a b => b.rating ≤ a.rating) ∧
    ∀ p ∈ store, p ∉ getTopProducts store →
      ∀ q ∈ getTopProducts store, p.rating ≤ q.rating := by
  have htrans : ∀ a b c : Product, ratingGe a b = true → ratingGe b c = true →
      ratingGe a c = true := by
    intro a b c hab hbc
    simp only [ratingGe, decide_eq_true_eq] at *
    exact le_trans hbc hab
  have htot : ∀ a b : Product, ratingGe a b = true ∨ ratingGe b a = true := by
    intro a b
    simp only [ratingGe, decide_eq_true_eq]
    exact le_total b.rating a.rating
  have hpair := sortOrd_pairwise ratingGe htrans htot store
  have hsorted : (sortOrd ratingGe store).Sorted (fun a b => b.rating ≤ a.rating) :=
    hpair.imp (fun h => by simpa [ratingGe] using h)
  refine ⟨List.length_take_le _ _, ?_, ?_⟩
  · exact List.Pairwise.sublist (List.take_sublist 3 _) hsorted
  · intro p hp hnp q hq
    have hmem : p ∈ sortOrd ratingGe store := (sortOrd_perm _ _).mem_iff.mpr hp
    rw [← List.take_append_drop 3 (sortOrd ratingGe store)] at hmem
    rcases List.mem_append.mp hmem with hmem | hmem
    · exact absurd hmem hnp
    · exact List.Sorted.rel_of_mem_take_of_mem_drop hsorted hq hmem

/-- Witness for C7: the lowest-rated of four sample products is not returned
and its rating is dominated by the top one. -/
theorem getTopProducts_spec_witness : productC7.rating ≤ productC7top.rating :=
  (getTopProducts_spec storeC7).2.2 productC7 (by simp [storeC7])
    (by decide) productC7top (by decide)

/-- C8: the three distinct-value lookups return duplicate-free lists, the
brand list is additionally sorted ascending, and the year list contains no
null entry. -/
theorem distinct_lookups_spec (store : List Product) :
    (getAllBrands store).Nodup ∧
    (getAllBrands store).Sorted (fun a b : String => a ≤ b) ∧
    (getAllColors store).Nodup ∧
    (getAllYears store).Nodup ∧
    none ∉ getAllYears store := by
  have htrans : ∀ a b c : String, strLe a b = true → strLe b c = true →
      strLe a c = true := by
    intro a b c hab hbc
    simp only [strLe, decide_eq_true_eq] at *
    exact le_trans hab hbc
  have htot : ∀ a b : String, strLe a b = true ∨ strLe b a = true := by
    intro a b
    simp only [strLe, decide_eq_true_eq]
    exact le_total a b
  refine ⟨?_, ?_, List.nodup_dedup _, List.nodup_dedup _, ?_⟩
  · exact (sortOrd_perm strLe _).symm.nodup (List.nodup_dedup _)
  · exact (sortOrd_pairwise strLe htrans htot _).imp
      (fun h => by simpa [strLe] using h)
  · intro h
    rw [getAllYears, List.mem_dedup] at h
    obtain ⟨p, hp, hyp⟩ := List.mem_map.mp h
    rw [List.mem_filter] at hp
    rw [hyp] at hp
    simp at hp

/-- Witness for C8: the sample color list is duplicate-free. -/
theorem distinct_lookups_spec_witness : (getAllColors storeC8).Nodup :=
  (distinct_lookups_spec storeC8).2.2.1

/-- C9: a product belongs to the keyword-filtered matching set exactly when
the lowercased keyword occurs contiguously inside its lowercased name, i.e.
the name contains the keyword as a substring under case-insensitive
comparison. -/
theorem keyword_filter_case_insensitive (kw : String) (store : List Product)
    (p : Product) (hp : p ∈ store) :
    p ∈ store.filter (matchesKeyword (some kw)) ↔
      lowerChars kw <:+: lowerChars p.name := by
  rw [List.mem_filter]
  simp only [hp, true_and]
  show containsCI kw p.name = true ↔ _
  rw [containsCI]
  exact containsChars_eq_true_iff _ _

/-- Witness for C9: an upper-cased keyword matches the mixed-case sample
product name. -/
theorem keyword_filter_case_insensitive_witness :
    productC9 ∈ storeC9.filter (matchesKeyword (some "AIRph")) ↔
      lowerChars "AIRph" <:+: lowerChars "AirPhone" :=
  keyword_filter_case_insensitive "AIRph" storeC9 productC9 (by simp [storeC9])

end ShopBackend
